import Mathlib

/-!
Verification development for the BuildDSL runtime name-resolution subsystem
(`src/builddsl/_runtime.py`).

The Python module is shallowly embedded as follows.

* Python values that flow through the contexts are modelled by `BuildDSL.Val`:
  the `NotSet.Value` sentinel (`undef`), opaque data values (`prim`), and
  bound-method objects (`method selfId methId`), where `selfId` is the identity
  of the method object member `__self__` and `methId` is the identity of the
  method object itself.  Python object identity (the `is` operator) is modelled
  by equality of these numeric identities.
* Mutable backing stores (object attribute dictionaries and plain mutable
  mappings) live in an explicit heap `Heap : Nat → Store`, a map from store
  identity to an association list of attributes.  `setStore`/`delStore`
  implement dictionary update/removal (unique-key semantics).
* Exceptions are modelled by `Except Err` results; `Err.nameNotFound` stands
  for Python `NameError` (the only class caught by `except NameError` in the
  source), while `Err.frozenBinding` and `Err.illegalLocalMutation` stand for
  the two `RuntimeError`s raised by `ObjectContext` and `Closure`, which no
  code in the module catches.  Mutating operations return `Except Err Heap`;
  in the source every `raise` happens before the mutation of any backing
  store, so an `error` result leaves the caller heap untouched by
  construction.
* `ObjectContext`, `MapContext` and `ChainContext` become the constructors of
  the inductive type `Context`; `Closure` (which also implements the Context
  protocol, with its extra local-snapshot/parent/builtins steps) is modelled
  by its own type `Closure`.  The read-only local-variable snapshot
  `frame.f_locals` is an optional `Store`, and the Python `builtins` module is
  a `Store` parameter of `Closure.getitem`.
-/

namespace BuildDSL

/-- A Python value as seen by the runtime: the `NotSet.Value` sentinel used as
the default of `getattr`, an opaque data value, or a bound-method object
carrying the identity of its `__self__` and its own identity. -/
inductive Val where
  | undef : Val
  | prim : Nat → Val
  | method : Nat → Nat → Val
deriving DecidableEq, Repr

/-- The module-level `undefined = NotSet.Value` sentinel. -/
def undefined : Val := Val.undef

/-- An attribute store: the attribute dictionary of one Python object or one
mutable mapping (unique keys). -/
abbrev Store := List (String × Val)

/-- Dictionary lookup on a store. -/
def lookupStore : Store → String → Option Val
  | [], _ => none
  | (k, v) :: rest, key => if k = key then some v else lookupStore rest key

/-- Dictionary update of an existing key: replaces the value bound to `key`,
leaving all other bindings (and the absence of `key`) untouched. -/
def setStore : Store → String → Val → Store
  | [], _, _ => []
  | (k, w) :: rest, key, value =>
    if k = key then (k, value) :: setStore rest key value
    else (k, w) :: setStore rest key value

/-- Dictionary removal of a key (`del d[key]` / `delattr`). -/
def delStore : Store → String → Store
  | [], _ => []
  | (k, w) :: rest, key =>
    if k = key then delStore rest key else (k, w) :: delStore rest key

/-- `getattr(target, key, undefined)` on the flat attribute store of the
target: a missing attribute yields the `undefined` sentinel. -/
def getattrD (s : Store) (key : String) : Val :=
  (lookupStore s key).getD Val.undef

/-- The heap: every Python object / mutable mapping is addressed by a numeric
identity and owns one attribute store. -/
abbrev Heap := Nat → Store

/-- Replace the store owned by identity `i`. -/
def updateHeap (h : Heap) (i : Nat) (s : Store) : Heap :=
  fun j => if j = i then s else h j

/-- Exceptions raised by the runtime module.  `nameNotFound key desc` is a
`NameError` naming `key` (with the raising context description in `desc`);
`frozenBinding op tid key` is the `RuntimeError` of `ObjectContext` refusing
to overwrite/delete a method; `illegalLocalMutation op` is the `RuntimeError`
of `Closure` refusing to mutate a frame-local name. -/
inductive Err where
  | nameNotFound : String → String → Err
  | frozenBinding : String → Nat → String → Err
  | illegalLocalMutation : String → Err
deriving DecidableEq, Repr

/-- Whether an error is a Python `NameError`, the only class caught by the
`except NameError` handlers of the module. -/
def Err.isNameNotFound : Err → Bool
  | .nameNotFound _ _ => true
  | _ => false

/-- The guard `isinstance(current, types.MethodType) and current.__self__ is
current` of `ObjectContext.__setitem__` / `__delitem__`, translated literally:
the member is a method object whose `__self__` is the method object itself. -/
def isSelfBoundMethod : Val → Bool
  | .method selfId methId => selfId == methId
  | _ => false

namespace ObjectContext

/-- `ObjectContext.__getitem__`: read the member off the target; the
`undefined` sentinel (member absent, or bound to the sentinel) is a
`NameError`. -/
def getitem (h : Heap) (tid : Nat) (key : String) : Except Err Val :=
  let value := getattrD (h tid) key
  if value = Val.undef then .error (.nameNotFound key "object") else .ok value

/-- `ObjectContext.__setitem__`: require the member to exist, refuse members
matching the self-bound-method guard, then `setattr`. -/
def setitem (h : Heap) (tid : Nat) (key : String) (value : Val) :
    Except Err Heap :=
  let current := getattrD (h tid) key
  if current = Val.undef then .error (.nameNotFound key "object")
  else if isSelfBoundMethod current then .error (.frozenBinding "overwrite" tid key)
  else .ok (updateHeap h tid (setStore (h tid) key value))

/-- `ObjectContext.__delitem__`: same checks as `setitem`, then `delattr`. -/
def delitem (h : Heap) (tid : Nat) (key : String) : Except Err Heap :=
  let current := getattrD (h tid) key
  if current = Val.undef then .error (.nameNotFound key "object")
  else if isSelfBoundMethod current then .error (.frozenBinding "delete" tid key)
  else .ok (updateHeap h tid (delStore (h tid) key))

end ObjectContext

namespace MapContext

/-- `MapContext.__getitem__`: delegate to the mapping; an absent key is a
`NameError` carrying the context description. -/
def getitem (h : Heap) (mid : Nat) (description key : String) : Except Err Val :=
  match lookupStore (h mid) key with
  | some v => .ok v
  | none => .error (.nameNotFound key description)

/-- `MapContext.__setitem__`: update the key only if it is already present. -/
def setitem (h : Heap) (mid : Nat) (description key : String) (value : Val) :
    Except Err Heap :=
  if (lookupStore (h mid) key).isSome then
    .ok (updateHeap h mid (setStore (h mid) key value))
  else .error (.nameNotFound key description)

/-- `MapContext.__delitem__`: remove the key only if it is already present. -/
def delitem (h : Heap) (mid : Nat) (description key : String) : Except Err Heap :=
  if (lookupStore (h mid) key).isSome then
    .ok (updateHeap h mid (delStore (h mid) key))
  else .error (.nameNotFound key description)

end MapContext

/-- The non-closure `Context` implementations of the module: `ObjectContext`
over a target object, `MapContext` over a mapping plus description, and
`ChainContext` over an ordered sequence of sub-contexts. -/
inductive Context where
  | objectContext : Nat → Context
  | mapContext : Nat → String → Context
  | chainContext : List Context → Context

mutual

/-- Dispatch `__getitem__` over the concrete `Context` variants. -/
def Context.getitem (h : Heap) : Context → String → Except Err Val
  | .objectContext tid, key => ObjectContext.getitem h tid key
  | .mapContext mid d, key => MapContext.getitem h mid d key
  | .chainContext subs, key => ChainContext.getitem h subs key

/-- `ChainContext.__getitem__`: try the sub-contexts in order, treating
`NameError` as "try the next one"; raise `NameError(key)` when exhausted. -/
def ChainContext.getitem (h : Heap) : List Context → String → Except Err Val
  | [], key => .error (.nameNotFound key "")
  | c :: rest, key =>
    match Context.getitem h c key with
    | .ok v => .ok v
    | .error e =>
      if e.isNameNotFound then ChainContext.getitem h rest key else .error e

end

mutual

/-- Dispatch `__setitem__` over the concrete `Context` variants. -/
def Context.setitem (h : Heap) : Context → String → Val → Except Err Heap
  | .objectContext tid, key, value => ObjectContext.setitem h tid key value
  | .mapContext mid d, key, value => MapContext.setitem h mid d key value
  | .chainContext subs, key, value => ChainContext.setitem h subs key value

/-- `ChainContext.__setitem__`: first sub-context that does not raise
`NameError` performs the write. -/
def ChainContext.setitem (h : Heap) : List Context → String → Val → Except Err Heap
  | [], key, _ => .error (.nameNotFound key "")
  | c :: rest, key, value =>
    match Context.setitem h c key value with
    | .ok h2 => .ok h2
    | .error e =>
      if e.isNameNotFound then ChainContext.setitem h rest key value else .error e

end

mutual

/-- Dispatch `__delitem__` over the concrete `Context` variants. -/
def Context.delitem (h : Heap) : Context → String → Except Err Heap
  | .objectContext tid, key => ObjectContext.delitem h tid key
  | .mapContext mid d, key => MapContext.delitem h mid d key
  | .chainContext subs, key => ChainContext.delitem h subs key

/-- `ChainContext.__delitem__`: first sub-context that does not raise
`NameError` performs the removal. -/
def ChainContext.delitem (h : Heap) : List Context → String → Except Err Heap
  | [], key => .error (.nameNotFound key "")
  | c :: rest, key =>
    match Context.delitem h c key with
    | .ok h2 => .ok h2
    | .error e =>
      if e.isNameNotFound then ChainContext.delitem h rest key else .error e

end

/-- `chain_with`: `ChainContext` appends `other` to its own sequence
(`ChainContext(*self._contexts, other)`); every other context builds the
two-element chain `ChainContext(self, other)`.  Both operands are taken by
value, so neither is mutated. -/
def Context.chain_with : Context → Context → Context
  | .chainContext subs, other => .chainContext (subs ++ [other])
  | c, other => .chainContext [c, other]

/-- Specification-side description of the chain propagation policy, written
from the spec sentence: the first result in the list that is not a
`NameNotFound` failure settles the outcome; if every result is `NameNotFound`
(or the list is empty) the aggregate outcome is `NameNotFound(key)`. -/
def firstSettled {α : Type} (key : String) : List (Except Err α) → Except Err α
  | [] => .error (.nameNotFound key "")
  | r :: rest =>
    match r with
    | .ok v => .ok v
    | .error e => if e.isNameNotFound then firstSettled key rest else .error e

/-- A `Closure`: optional parent closure, optional local-variable snapshot
(the `f_locals` of the captured frame), the raw target value (a heap
identity), the context-construction strategy `_context_factory`, and the
derived-or-given `_target_context`.  The final field stores the value computed
by `Closure.__init__` (see `mkClosure`). -/
inductive Closure where
  | mk : Option Closure → Option Store → Option Nat → (Nat → Context) →
      Option Context → Closure

/-- The `_parent` field. -/
def Closure.parent : Closure → Option Closure
  | .mk p _ _ _ _ => p

/-- The local snapshot held through the `_frame` field (`frame.f_locals`). -/
def Closure.frame : Closure → Option Store
  | .mk _ fl _ _ _ => fl

/-- The `_target` field. -/
def Closure.target : Closure → Option Nat
  | .mk _ _ tgt _ _ => tgt

/-- The `_context_factory` field. -/
def Closure.context_factory : Closure → (Nat → Context)
  | .mk _ _ _ fac _ => fac

/-- The `_target_context` field. -/
def Closure.target_context : Closure → Option Context
  | .mk _ _ _ _ tctx => tctx

/-- `Closure.__init__`: when no explicit target context is supplied, derive
one by applying the context factory to the target (if a target is given). -/
def mkClosure (parent : Option Closure) (frame : Option Store)
    (target : Option Nat) (context_factory : Nat → Context)
    (target_context : Option Context) : Closure :=
  Closure.mk parent frame target context_factory
    (match target_context with
     | some tc => some tc
     | none => target.map context_factory)

/-- The test `frame and key in frame.f_locals` followed by the read
`frame.f_locals[key]`: the value of `key` in the local snapshot, when a frame
is attached and the snapshot binds `key`. -/
def localLookup (frame : Option Store) (key : String) : Option Val :=
  match frame with
  | some fl => lookupStore fl key
  | none => none

/-- The `try: ... except NameError: pass` block applied to the optional
target context: `none` when there is no target context or the operation
raised `NameError` (fall through to the next step); `some r` when the
operation settled the outcome. -/
def targetStep {α : Type} (op : Context → Except Err α) :
    Option Context → Option (Except Err α)
  | some tc =>
    match op tc with
    | .ok v => some (.ok v)
    | .error e => if e.isNameNotFound then none else some (.error e)
  | none => none

/-- The trailing `if hasattr(builtins, key): return getattr(builtins, key)`
fallback of `Closure.__getitem__`, with the builtins module passed in as a
store; when the symbol is absent the final `NameError` of the method is
raised. -/
def builtinFallback (bi : Store) (key : String) : Except Err Val :=
  match lookupStore bi key with
  | some v => .ok v
  | none => .error (.nameNotFound key "Closure")

/-- `Closure.__getitem__`: local snapshot, then target context, then parent
(catching `NameError` from each of the latter two), then builtins. -/
def Closure.getitem (bi : Store) (h : Heap) : Closure → String → Except Err Val
  | .mk parent fl _ _ tctx, key =>
    match localLookup fl key with
    | some v => .ok v
    | none =>
      match targetStep (fun tc => Context.getitem h tc key) tctx with
      | some r => r
      | none =>
        match parent with
        | some p =>
          (match Closure.getitem bi h p key with
           | .ok v => .ok v
           | .error e =>
             if e.isNameNotFound then builtinFallback bi key else .error e)
        | none => builtinFallback bi key

/-- `Closure.__setitem__`: a frame-local name raises the `RuntimeError`
guarding the compiler contract; otherwise try the target context, then the
parent, and raise `NameError` ("unclear where to set") when both decline. -/
def Closure.setitem (h : Heap) : Closure → String → Val → Except Err Heap
  | .mk parent fl _ _ tctx, key, value =>
    match localLookup fl key with
    | some _ => .error (.illegalLocalMutation "set")
    | none =>
      match targetStep (fun tc => Context.setitem h tc key value) tctx with
      | some r => r
      | none =>
        match parent with
        | some p =>
          (match Closure.setitem h p key value with
           | .ok h2 => .ok h2
           | .error e =>
             if e.isNameNotFound then
               .error (.nameNotFound key "unclear where to set")
             else .error e)
        | none => .error (.nameNotFound key "unclear where to set")

/-- `Closure.__delitem__`: same shape as `setitem` with deletion. -/
def Closure.delitem (h : Heap) : Closure → String → Except Err Heap
  | .mk parent fl _ _ tctx, key =>
    match localLookup fl key with
    | some _ => .error (.illegalLocalMutation "delete")
    | none =>
      match targetStep (fun tc => Context.delitem h tc key) tctx with
      | some r => r
      | none =>
        match parent with
        | some p =>
          (match Closure.delitem h p key with
           | .ok h2 => .ok h2
           | .error e =>
             if e.isNameNotFound then
               .error (.nameNotFound key "unclear where to delete")
             else .error e)
        | none => .error (.nameNotFound key "unclear where to delete")

/-- `Closure.from_map(m)`: a root closure with no parent, no frame, the map
as raw target, the `ObjectContext` factory for descendants, and an explicit
`MapContext` over the map as its own target context. -/
def Closure.from_map (mid : Nat) : Closure :=
  mkClosure none none (some mid) Context.objectContext
    (some (Context.mapContext mid "Closure.from_map()"))

/-- `UnboundClosure`: the captured (parent closure, frame snapshot, callable)
triple.  The callable receives the freshly bound closure and the original
positional arguments (heap identities). -/
structure UnboundClosure (α : Type) where
  parent : Closure
  frame : Store
  func : Closure → List Nat → α

/-- The closure built by `UnboundClosure.__call__`: parent and frame are the
captured ones, the target is the first positional argument when present, the
factory is the parent factory, and no explicit target context is passed. -/
def UnboundClosure.boundClosure {α : Type} (uc : UnboundClosure α)
    (args : List Nat) : Closure :=
  mkClosure (some uc.parent) (some uc.frame) args.head?
    uc.parent.context_factory none

/-- `UnboundClosure.__call__`: build the bound closure and invoke the
captured callable with it prepended to the arguments. -/
def UnboundClosure.call {α : Type} (uc : UnboundClosure α) (args : List Nat) : α :=
  uc.func (uc.boundClosure args) args

/-! ## Claim theorems -/

/-- A heap with one object (identity 0) carrying a member `run` that is a
method bound to the object itself (`__self__` identity 0, method-object
identity 1 — a genuine bound method is a distinct object from its
`__self__`), plus a plain data member `name`. -/
def methodHeap : Heap := fun i =>
  if i = 0 then [("run", Val.method 0 1), ("name", Val.prim 7)] else []

/-- C1: the guard of `ObjectContext.__setitem__` / `__delitem__` is
`current.__self__ is current`, comparing the bound method to itself rather
than to the wrapped target, and no genuine bound method satisfies it (its
`__self__` is the target object, a different object).  Hence, contrary to the
claim and to the class docstring, `set` on the bound member `run` succeeds and
overwrites it and `delete` removes it, with no `FrozenBinding` failure; `set`
on the plain data member `name` succeeds as well. -/
theorem c1_frozen_binding_guard_never_fires :
    isSelfBoundMethod (Val.method 0 1) = false
    ∧ ObjectContext.setitem methodHeap 0 "run" (Val.prim 42)
        = .ok (updateHeap methodHeap 0 (setStore (methodHeap 0) "run" (Val.prim 42)))
    ∧ lookupStore (setStore (methodHeap 0) "run" (Val.prim 42)) "run"
        = some (Val.prim 42)
    ∧ ObjectContext.delitem methodHeap 0 "run"
        = .ok (updateHeap methodHeap 0 (delStore (methodHeap 0) "run"))
    ∧ lookupStore (delStore (methodHeap 0) "run") "run" = none
    ∧ ObjectContext.setitem methodHeap 0 "name" (Val.prim 42)
        = .ok (updateHeap methodHeap 0 (setStore (methodHeap 0) "name" (Val.prim 42)))
    ∧ lookupStore (setStore (methodHeap 0) "name" (Val.prim 42)) "name"
        = some (Val.prim 42) := by
  refine ⟨rfl, rfl, by decide, rfl, by decide, rfl, by decide⟩

/-- C4: every `ChainContext` operation equals the specification-side
`firstSettled` fold over the results of the sub-contexts taken in
construction order: the first sub-context whose result is not a
`NameNotFound` failure settles the outcome (a success is returned as is and
later sub-contexts contribute nothing — in particular the resulting heap is
the one produced by that sub-context alone; any other failure propagates
unchanged), and if every sub-context fails `NameNotFound` the chain fails
`NameNotFound(key)`. -/
theorem c4_chain_first_settled (h : Heap) (subs : List Context) (key : String)
    (value : Val) :
    ChainContext.getitem h subs key
      = firstSettled key (subs.map (fun c => Context.getitem h c key))
    ∧ ChainContext.setitem h subs key value
      = firstSettled key (subs.map (fun c => Context.setitem h c key value))
    ∧ ChainContext.delitem h subs key
      = firstSettled key (subs.map (fun c => Context.delitem h c key)) := by
  refine ⟨?_, ?_, ?_⟩
  · induction subs with
    | nil => rfl
    | cons c rest ih =>
      simp only [List.map_cons, ChainContext.getitem, firstSettled]
      cases hres : Context.getitem h c key with
      | ok v => rfl
      | error e =>
        by_cases he : e.isNameNotFound = true
        · simp [he, ih]
        · simp [he]
  · induction subs with
    | nil => rfl
    | cons c rest ih =>
      simp only [List.map_cons, ChainContext.setitem, firstSettled]
      cases hres : Context.setitem h c key value with
      | ok h2 => rfl
      | error e =>
        by_cases he : e.isNameNotFound = true
        · simp [he, ih]
        · simp [he]
  · induction subs with
    | nil => rfl
    | cons c rest ih =>
      simp only [List.map_cons, ChainContext.delitem, firstSettled]
      cases hres : Context.delitem h c key with
      | ok h2 => rfl
      | error e =>
        by_cases he : e.isNameNotFound = true
        · simp [he, ih]
        · simp [he]

/-- C8: `chain_with` on a `ChainContext` yields a new chain whose sequence is
the old sequence with `other` appended, while `chain_with` on the non-chain
contexts yields the two-element chain of the operands; being a pure
function of its operands, it mutates neither. -/
theorem c8_chain_with_appends (subs : List Context) (other : Context)
    (tid mid : Nat) (d : String) :
    Context.chain_with (.chainContext subs) other
      = .chainContext (subs ++ [other])
    ∧ Context.chain_with (.objectContext tid) other
      = .chainContext [.objectContext tid, other]
    ∧ Context.chain_with (.mapContext mid d) other
      = .chainContext [.mapContext mid d, other] := by
  exact ⟨rfl, rfl, rfl⟩

/-- C6: invoking an `UnboundClosure` (captured parent `P`, snapshot `L`,
callable `f`) with positional arguments builds a closure whose parent is `P`,
whose snapshot is `L`, whose target is the first argument when one is given
(its context derived by applying the parent context factory to it) and absent
otherwise, and then invokes `f` with that closure prepended to the
arguments. -/
theorem c6_unbound_closure_call {α : Type} (uc : UnboundClosure α)
    (args : List Nat) (a : Nat) (rest : List Nat) :
    (uc.boundClosure args).parent = some uc.parent
    ∧ (uc.boundClosure args).frame = some uc.frame
    ∧ (uc.boundClosure args).target = args.head?
    ∧ (uc.boundClosure args).context_factory = uc.parent.context_factory
    ∧ (uc.boundClosure (a :: rest)).target_context
        = some (uc.parent.context_factory a)
    ∧ (uc.boundClosure []).target_context = none
    ∧ uc.call args = uc.func (uc.boundClosure args) args := by
  exact ⟨rfl, rfl, rfl, rfl, rfl, rfl, rfl⟩

/-! ### Store lemmas shared by the claims about mutation -/

lemma lookupStore_setStore_self (s : Store) (key : String) (v : Val) :
    lookupStore (setStore s key v) key = (lookupStore s key).map (fun _ => v) := by
  induction s with
  | nil => rfl
  | cons kv rest ih =>
    obtain ⟨k, w⟩ := kv
    by_cases hk : k = key
    · simp [setStore, lookupStore, hk]
    · simpa [setStore, lookupStore, hk] using ih

lemma lookupStore_setStore_ne (s : Store) (key k2 : String) (v : Val)
    (hne : k2 ≠ key) :
    lookupStore (setStore s key v) k2 = lookupStore s k2 := by
  induction s with
  | nil => rfl
  | cons kv rest ih =>
    obtain ⟨k, w⟩ := kv
    by_cases hk : k = key
    · subst hk
      simpa [setStore, lookupStore, Ne.symm hne] using ih
    · by_cases hk2 : k = k2
      · simp [setStore, lookupStore, hk, hk2, hne]
      · simpa [setStore, lookupStore, hk, hk2] using ih

lemma lookupStore_delStore_self (s : Store) (key : String) :
    lookupStore (delStore s key) key = none := by
  induction s with
  | nil => rfl
  | cons kv rest ih =>
    obtain ⟨k, w⟩ := kv
    by_cases hk : k = key
    · simpa [delStore, hk] using ih
    · simpa [delStore, lookupStore, hk] using ih

lemma lookupStore_delStore_ne (s : Store) (key k2 : String) (hne : k2 ≠ key) :
    lookupStore (delStore s key) k2 = lookupStore s k2 := by
  induction s with
  | nil => rfl
  | cons kv rest ih =>
    obtain ⟨k, w⟩ := kv
    by_cases hk : k = key
    · subst hk
      simpa [delStore, lookupStore, Ne.symm hne] using ih
    · by_cases hk2 : k = k2
      · simp [delStore, lookupStore, hk, hk2, hne]
      · simpa [delStore, lookupStore, hk, hk2] using ih

/-- C5: a `MapContext` never inserts a key.  On a key absent from the backing
store all three operations fail with `NameNotFound` carrying the context
description (and produce no heap, so every store is left as it was); on a
present key `set` updates the binding in place and `delete` removes it; a key
absent before a mutation is still absent after it; and stores of other heap
identities are untouched. -/
theorem c5_map_context_never_inserts (hp : Heap) (mid : Nat)
    (d key k2 : String) (value v : Val) :
    (lookupStore (hp mid) key = none →
      MapContext.getitem hp mid d key = .error (.nameNotFound key d)
      ∧ MapContext.setitem hp mid d key value = .error (.nameNotFound key d)
      ∧ MapContext.delitem hp mid d key = .error (.nameNotFound key d))
    ∧ (lookupStore (hp mid) key = some v →
      MapContext.getitem hp mid d key = .ok v
      ∧ MapContext.setitem hp mid d key value
          = .ok (updateHeap hp mid (setStore (hp mid) key value))
      ∧ lookupStore (setStore (hp mid) key value) key = some value
      ∧ MapContext.delitem hp mid d key
          = .ok (updateHeap hp mid (delStore (hp mid) key))
      ∧ lookupStore (delStore (hp mid) key) key = none)
    ∧ (lookupStore (hp mid) k2 = none →
      lookupStore (setStore (hp mid) key value) k2 = none
      ∧ lookupStore (delStore (hp mid) key) k2 = none)
    ∧ (∀ j, j ≠ mid → updateHeap hp mid (setStore (hp mid) key value) j = hp j
      ∧ updateHeap hp mid (delStore (hp mid) key) j = hp j) := by
  refine ⟨?_, ?_, ?_, ?_⟩
  · intro habs
    refine ⟨?_, ?_, ?_⟩ <;>
      simp [MapContext.getitem, MapContext.setitem, MapContext.delitem, habs]
  · intro hpres
    refine ⟨?_, ?_, ?_, ?_, ?_⟩
    · simp [MapContext.getitem, hpres]
    · simp [MapContext.setitem, hpres]
    · simp [lookupStore_setStore_self, hpres]
    · simp [MapContext.delitem, hpres]
    · exact lookupStore_delStore_self _ _
  · intro habs
    constructor
    · by_cases hk : k2 = key
      · subst hk; simp [lookupStore_setStore_self, habs]
      · rw [lookupStore_setStore_ne _ _ _ _ hk]; exact habs
    · by_cases hk : k2 = key
      · subst hk; exact lookupStore_delStore_self _ _
      · rw [lookupStore_delStore_ne _ _ _ hk]; exact habs
  · intro j hj
    constructor <;> simp [updateHeap, hj]

/-- Concrete instantiation of `c5_map_context_never_inserts`: the spec
example mapping { a ↦ 1 }. -/
def mapHeap : Heap := fun i => if i = 0 then [("a", Val.prim 1)] else []

/-- Witness for C5: `set("b", 2)` on `{ a: 1 }` fails `NameNotFound("b")`
while `set("a", 2)` succeeds and the store then binds `a` to 2 (and still has
no key `b`). -/
theorem c5_map_context_never_inserts_witness :
    (lookupStore (mapHeap 0) "b" = none
      ∧ MapContext.setitem mapHeap 0 "m" "b" (Val.prim 2)
          = .error (.nameNotFound "b" "m"))
    ∧ (lookupStore (mapHeap 0) "a" = some (Val.prim 1)
      ∧ MapContext.setitem mapHeap 0 "m" "a" (Val.prim 2)
          = .ok (updateHeap mapHeap 0 (setStore (mapHeap 0) "a" (Val.prim 2)))
      ∧ lookupStore (setStore (mapHeap 0) "a" (Val.prim 2)) "a"
          = some (Val.prim 2)
      ∧ lookupStore (setStore (mapHeap 0) "a" (Val.prim 2)) "b" = none) := by
  have habs := (c5_map_context_never_inserts mapHeap 0 "m" "b" "b" (Val.prim 2)
    (Val.prim 1)).1 (by decide)
  have hpres := (c5_map_context_never_inserts mapHeap 0 "m" "a" "a" (Val.prim 2)
    (Val.prim 1)).2.1 (by decide)
  have hnok := (c5_map_context_never_inserts mapHeap 0 "m" "a" "b" (Val.prim 2)
    (Val.prim 1)).2.2.1 (by decide)
  exact ⟨⟨by decide, habs.2.1⟩, ⟨by decide, hpres.2.1, hpres.2.2.1, hnok.1⟩⟩

/-- C9: a member whose stored value is the `undefined` sentinel
(`NotSet.Value`) is treated by every `ObjectContext` operation exactly like an
absent member — `getattr(target, key, undefined)` returns the sentinel in
both cases — so get/set/delete all fail `NameNotFound` even though the member
exists on the object. -/
theorem c9_undefined_sentinel_hides_member (hp : Heap) (tid : Nat)
    (key : String) (value : Val)
    (hm : lookupStore (hp tid) key = some Val.undef) :
    ObjectContext.getitem hp tid key = .error (.nameNotFound key "object")
    ∧ ObjectContext.setitem hp tid key value
        = .error (.nameNotFound key "object")
    ∧ ObjectContext.delitem hp tid key = .error (.nameNotFound key "object") := by
  refine ⟨?_, ?_, ?_⟩ <;>
    simp [ObjectContext.getitem, ObjectContext.setitem, ObjectContext.delitem,
      getattrD, hm]

/-- An object whose member `ghost` is bound to the `undefined` sentinel. -/
def undefHeap : Heap := fun i =>
  if i = 0 then [("ghost", Val.undef)] else []

/-- Witness for C9 at the object `undefHeap 0`, whose member `ghost` exists
and is bound to the sentinel. -/
theorem c9_undefined_sentinel_hides_member_witness :
    lookupStore (undefHeap 0) "ghost" = some Val.undef
    ∧ ObjectContext.getitem undefHeap 0 "ghost"
        = .error (.nameNotFound "ghost" "object")
    ∧ ObjectContext.setitem undefHeap 0 "ghost" (Val.prim 5)
        = .error (.nameNotFound "ghost" "object")
    ∧ ObjectContext.delitem undefHeap 0 "ghost"
        = .error (.nameNotFound "ghost" "object") := by
  have h := c9_undefined_sentinel_hides_member undefHeap 0 "ghost" (Val.prim 5)
    (by decide)
  exact ⟨by decide, h.1, h.2.1, h.2.2⟩

/-- C2: `Closure.__getitem__` resolves in exactly the order local snapshot →
target context → parent (recursively) → builtins.  A key bound in the local
snapshot is returned terminally, whatever the target, parent and builtins
hold; otherwise a target success or non-`NameNotFound` target failure is the
result; otherwise (`targetStep ... = none`: no target context attached, or it
raised `NameNotFound`) an attached parent is consulted, its success or
non-`NameNotFound` failure is the result and its `NameNotFound` falls through
to the builtins; with no parent the builtins are consulted directly, a
present builtin symbol is returned and an absent one yields
`NameNotFound(key)`. -/
theorem c2_get_resolution_order (bi : Store) (h : Heap)
    (parent : Option Closure) (fl : Option Store) (tgt : Option Nat)
    (fac : Nat → Context) (tctx : Option Context) (key : String) :
    (∀ v, localLookup fl key = some v →
      Closure.getitem bi h (.mk parent fl tgt fac tctx) key = .ok v)
    ∧ (∀ tc v, localLookup fl key = none → tctx = some tc →
      Context.getitem h tc key = .ok v →
      Closure.getitem bi h (.mk parent fl tgt fac tctx) key = .ok v)
    ∧ (∀ tc e, localLookup fl key = none → tctx = some tc →
      Context.getitem h tc key = .error e → e.isNameNotFound = false →
      Closure.getitem bi h (.mk parent fl tgt fac tctx) key = .error e)
    ∧ (∀ p, localLookup fl key = none →
      targetStep (fun tc => Context.getitem h tc key) tctx = none →
      parent = some p →
      Closure.getitem bi h (.mk parent fl tgt fac tctx) key
        = match Closure.getitem bi h p key with
          | .ok v => .ok v
          | .error e =>
            if e.isNameNotFound then builtinFallback bi key else .error e)
    ∧ (localLookup fl key = none →
      targetStep (fun tc => Context.getitem h tc key) tctx = none →
      parent = none →
      Closure.getitem bi h (.mk parent fl tgt fac tctx) key
        = builtinFallback bi key)
    ∧ (targetStep (fun tc => Context.getitem h tc key) none = none)
    ∧ (∀ tc e, Context.getitem h tc key = .error e → e.isNameNotFound = true →
      targetStep (fun tc => Context.getitem h tc key) (some tc) = none)
    ∧ (∀ v, lookupStore bi key = some v → builtinFallback bi key = .ok v)
    ∧ (lookupStore bi key = none →
      builtinFallback bi key = .error (.nameNotFound key "Closure")) := by
  refine ⟨?_, ?_, ?_, ?_, ?_, ?_, ?_, ?_, ?_⟩
  · intro v hv
    cases parent <;> simp [Closure.getitem, hv]
  · intro tc v hl htc hok
    subst htc
    cases parent <;> simp [Closure.getitem, hl, targetStep, hok]
  · intro tc e hl htc herr hnnf
    subst htc
    cases parent <;> simp [Closure.getitem, hl, targetStep, herr, hnnf]
  · intro p hl hts hpar
    subst hpar
    simp only [Closure.getitem, hl, hts]
  · intro hl hts hpar
    subst hpar
    simp [Closure.getitem, hl, hts]
  · rfl
  · intro tc e herr hnnf
    simp [targetStep, herr, hnnf]
  · intro v hv
    simp [builtinFallback, hv]
  · intro hv
    simp [builtinFallback, hv]

/-- C3: `Closure.__setitem__` / `__delitem__` raise the distinct
`IllegalLocalMutation` condition as soon as the key is bound in the local
snapshot — whatever target and parent would do, and producing no heap, so no
backing store is modified; on a non-local key they try the target context,
then the parent recursively (a `NameNotFound` from either meaning "try the
next"), a non-`NameNotFound` failure propagates, and when target and parent
both decline the operation fails `NameNotFound(key)` (the "unclear where to"
failure). -/
theorem c3_local_mutation_guard (h : Heap) (parent : Option Closure)
    (fl : Option Store) (tgt : Option Nat) (fac : Nat → Context)
    (tctx : Option Context) (key : String) (value : Val) :
    (∀ v, localLookup fl key = some v →
      Closure.setitem h (.mk parent fl tgt fac tctx) key value
        = .error (.illegalLocalMutation "set")
      ∧ Closure.delitem h (.mk parent fl tgt fac tctx) key
        = .error (.illegalLocalMutation "delete"))
    ∧ (∀ tc h2, localLookup fl key = none → tctx = some tc →
      Context.setitem h tc key value = .ok h2 →
      Closure.setitem h (.mk parent fl tgt fac tctx) key value = .ok h2)
    ∧ (∀ tc e, localLookup fl key = none → tctx = some tc →
      Context.setitem h tc key value = .error e → e.isNameNotFound = false →
      Closure.setitem h (.mk parent fl tgt fac tctx) key value = .error e)
    ∧ (∀ p, localLookup fl key = none →
      targetStep (fun tc => Context.setitem h tc key value) tctx = none →
      parent = some p →
      Closure.setitem h (.mk parent fl tgt fac tctx) key value
        = match Closure.setitem h p key value with
          | .ok h2 => .ok h2
          | .error e =>
            if e.isNameNotFound then
              .error (.nameNotFound key "unclear where to set")
            else .error e)
    ∧ (localLookup fl key = none →
      targetStep (fun tc => Context.setitem h tc key value) tctx = none →
      parent = none →
      Closure.setitem h (.mk parent fl tgt fac tctx) key value
        = .error (.nameNotFound key "unclear where to set"))
    ∧ (∀ tc h2, localLookup fl key = none → tctx = some tc →
      Context.delitem h tc key = .ok h2 →
      Closure.delitem h (.mk parent fl tgt fac tctx) key = .ok h2)
    ∧ (∀ p, localLookup fl key = none →
      targetStep (fun tc => Context.delitem h tc key) tctx = none →
      parent = some p →
      Closure.delitem h (.mk parent fl tgt fac tctx) key
        = match Closure.delitem h p key with
          | .ok h2 => .ok h2
          | .error e =>
            if e.isNameNotFound then
              .error (.nameNotFound key "unclear where to delete")
            else .error e)
    ∧ (localLookup fl key = none →
      targetStep (fun tc => Context.delitem h tc key) tctx = none →
      parent = none →
      Closure.delitem h (.mk parent fl tgt fac tctx) key
        = .error (.nameNotFound key "unclear where to delete")) := by
  refine ⟨?_, ?_, ?_, ?_, ?_, ?_, ?_, ?_⟩
  · intro v hv
    constructor <;>
      cases parent <;> simp [Closure.setitem, Closure.delitem, hv]
  · intro tc h2 hl htc hok
    subst htc
    cases parent <;> simp [Closure.setitem, hl, targetStep, hok]
  · intro tc e hl htc herr hnnf
    subst htc
    cases parent <;> simp [Closure.setitem, hl, targetStep, herr, hnnf]
  · intro p hl hts hpar
    subst hpar
    simp only [Closure.setitem, hl, hts]
  · intro hl hts hpar
    subst hpar
    simp [Closure.setitem, hl, hts]
  · intro tc h2 hl htc hok
    subst htc
    cases parent <;> simp [Closure.delitem, hl, targetStep, hok]
  · intro p hl hts hpar
    subst hpar
    simp only [Closure.delitem, hl, hts]
  · intro hl hts hpar
    subst hpar
    simp [Closure.delitem, hl, hts]

/-- A heap whose mapping 1 binds both `k` and `x`, used to exhibit shadowing:
target and parent can resolve these keys, yet the local snapshot wins. -/
def localsHeap : Heap := fun i =>
  if i = 1 then [("k", Val.prim 9), ("x", Val.prim 9)] else []

/-- Witness for C2: a closure whose local snapshot binds `k` to 3 returns 3
for `k` even though its target context, its parent and the builtins all bind
`k` as well. -/
theorem c2_get_resolution_order_witness :
    localLookup (some [("k", Val.prim 3)]) "k" = some (Val.prim 3)
    ∧ Closure.getitem [("k", Val.prim 11)] localsHeap
        (.mk (some (Closure.from_map 1)) (some [("k", Val.prim 3)]) none
          Context.objectContext (some (Context.mapContext 1 "m"))) "k"
        = .ok (Val.prim 3) :=
  ⟨by decide,
    (c2_get_resolution_order [("k", Val.prim 11)] localsHeap
        (some (Closure.from_map 1)) (some [("k", Val.prim 3)]) none
        Context.objectContext (some (Context.mapContext 1 "m")) "k").1
      (Val.prim 3) (by decide)⟩

/-- Witness for C3: a closure whose local snapshot binds `x` fails
`IllegalLocalMutation` on set and on delete, although both its target context
and its parent map `x` and would accept the write. -/
theorem c3_local_mutation_guard_witness :
    localLookup (some [("x", Val.prim 3)]) "x" = some (Val.prim 3)
    ∧ Closure.setitem localsHeap
        (.mk (some (Closure.from_map 1)) (some [("x", Val.prim 3)]) none
          Context.objectContext (some (Context.mapContext 1 "m"))) "x"
          (Val.prim 9)
        = .error (.illegalLocalMutation "set")
    ∧ Closure.delitem localsHeap
        (.mk (some (Closure.from_map 1)) (some [("x", Val.prim 3)]) none
          Context.objectContext (some (Context.mapContext 1 "m"))) "x"
        = .error (.illegalLocalMutation "delete") := by
  have hg := (c3_local_mutation_guard localsHeap (some (Closure.from_map 1))
      (some [("x", Val.prim 3)]) none Context.objectContext
      (some (Context.mapContext 1 "m")) "x" (Val.prim 9)).1
    (Val.prim 3) (by decide)
  exact ⟨by decide, hg.1, hg.2⟩

/-- C7: `from_map(m)` builds a root closure — no parent, no local snapshot —
whose own target context is a `MapContext` over `m` and whose factory for
descendants is the `ObjectContext` (attribute) wrapper; consequently get on
the result yields the value bound in `m` for present keys (falling back to
the builtins, and then to `NameNotFound`, only for keys absent from `m`),
while set/delete update/remove exactly the keys present in `m` and fail with
a `NameNotFound` error for absent ones. -/
theorem c7_from_map_root_closure (mid : Nat) (bi : Store) (hp : Heap)
    (key : String) (value v : Val) :
    (Closure.from_map mid).parent = none
    ∧ (Closure.from_map mid).frame = none
    ∧ (Closure.from_map mid).target = some mid
    ∧ (Closure.from_map mid).target_context
        = some (Context.mapContext mid "Closure.from_map()")
    ∧ (∀ i, (Closure.from_map mid).context_factory i = Context.objectContext i)
    ∧ (lookupStore (hp mid) key = some v →
        Closure.getitem bi hp (Closure.from_map mid) key = .ok v)
    ∧ (lookupStore (hp mid) key = none → lookupStore bi key = some v →
        Closure.getitem bi hp (Closure.from_map mid) key = .ok v)
    ∧ (lookupStore (hp mid) key = none → lookupStore bi key = none →
        Closure.getitem bi hp (Closure.from_map mid) key
          = .error (.nameNotFound key "Closure"))
    ∧ (lookupStore (hp mid) key = some v →
        Closure.setitem hp (Closure.from_map mid) key value
          = .ok (updateHeap hp mid (setStore (hp mid) key value)))
    ∧ (lookupStore (hp mid) key = none →
        Closure.setitem hp (Closure.from_map mid) key value
          = .error (.nameNotFound key "unclear where to set"))
    ∧ (lookupStore (hp mid) key = some v →
        Closure.delitem hp (Closure.from_map mid) key
          = .ok (updateHeap hp mid (delStore (hp mid) key)))
    ∧ (lookupStore (hp mid) key = none →
        Closure.delitem hp (Closure.from_map mid) key
          = .error (.nameNotFound key "unclear where to delete")) := by
  refine ⟨rfl, rfl, rfl, rfl, fun i => rfl, ?_, ?_, ?_, ?_, ?_, ?_, ?_⟩
  · intro hpres
    simp [Closure.from_map, mkClosure, Closure.getitem, localLookup,
      targetStep, Context.getitem, MapContext.getitem, hpres]
  · intro habs hbi
    simp [Closure.from_map, mkClosure, Closure.getitem, localLookup,
      targetStep, Context.getitem, MapContext.getitem, builtinFallback,
      Err.isNameNotFound, habs, hbi]
  · intro habs hbi
    simp [Closure.from_map, mkClosure, Closure.getitem, localLookup,
      targetStep, Context.getitem, MapContext.getitem, builtinFallback,
      Err.isNameNotFound, habs, hbi]
  · intro hpres
    simp [Closure.from_map, mkClosure, Closure.setitem, localLookup,
      targetStep, Context.setitem, MapContext.setitem, hpres]
  · intro habs
    simp [Closure.from_map, mkClosure, Closure.setitem, localLookup,
      targetStep, Context.setitem, MapContext.setitem, Err.isNameNotFound,
      habs]
  · intro hpres
    simp [Closure.from_map, mkClosure, Closure.delitem, localLookup,
      targetStep, Context.delitem, MapContext.delitem, hpres]
  · intro habs
    simp [Closure.from_map, mkClosure, Closure.delitem, localLookup,
      targetStep, Context.delitem, MapContext.delitem, Err.isNameNotFound,
      habs]

/-- Witness for C7 on the mapping { a ↦ 1 }: get returns 1, an absent
key with no builtin of that name fails `NameNotFound`, and set on the
present key produces the updated store. -/
theorem c7_from_map_root_closure_witness :
    (lookupStore (mapHeap 0) "a" = some (Val.prim 1)
      ∧ Closure.getitem [] mapHeap (Closure.from_map 0) "a" = .ok (Val.prim 1))
    ∧ (lookupStore (mapHeap 0) "b" = none
      ∧ Closure.getitem [] mapHeap (Closure.from_map 0) "b"
          = .error (.nameNotFound "b" "Closure"))
    ∧ Closure.setitem mapHeap (Closure.from_map 0) "a" (Val.prim 2)
        = .ok (updateHeap mapHeap 0 (setStore (mapHeap 0) "a" (Val.prim 2))) := by
  have h1 := (c7_from_map_root_closure 0 [] mapHeap "a" (Val.prim 2)
    (Val.prim 1)).2.2.2.2.2
  have h2 := (c7_from_map_root_closure 0 [] mapHeap "b" (Val.prim 2)
    (Val.prim 1)).2.2.2.2.2
  exact ⟨⟨by decide, h1.1 (by decide)⟩,
    ⟨by decide, h2.2.2.1 (by decide) (by decide)⟩,
    h1.2.2.2.1 (by decide)⟩

/-- C10: invoking an `UnboundClosure` with no positional arguments yields a
closure with no target context at all; for any closure without a target
context, get resolves through the local snapshot, then the parent chain, then
the builtins, and set/delete on a non-local key delegate directly to the
parent (its `NameNotFound` being rewrapped as the "unclear where to" failure,
which is also the immediate outcome when no parent is attached). -/
theorem c10_zero_args_closure_has_no_target (bi : Store) (h : Heap)
    {α : Type} (uc : UnboundClosure α) (parent : Option Closure)
    (fl : Option Store) (tgt : Option Nat) (fac : Nat → Context)
    (key : String) (value : Val) :
    (uc.boundClosure []).target_context = none
    ∧ (uc.boundClosure []).target = none
    ∧ (∀ v, localLookup fl key = some v →
      Closure.getitem bi h (.mk parent fl tgt fac none) key = .ok v)
    ∧ (∀ p, localLookup fl key = none → parent = some p →
      Closure.getitem bi h (.mk parent fl tgt fac none) key
        = match Closure.getitem bi h p key with
          | .ok v => .ok v
          | .error e =>
            if e.isNameNotFound then builtinFallback bi key else .error e)
    ∧ (localLookup fl key = none → parent = none →
      Closure.getitem bi h (.mk parent fl tgt fac none) key
        = builtinFallback bi key)
    ∧ (∀ p, localLookup fl key = none → parent = some p →
      Closure.setitem h (.mk parent fl tgt fac none) key value
        = match Closure.setitem h p key value with
          | .ok h2 => .ok h2
          | .error e =>
            if e.isNameNotFound then
              .error (.nameNotFound key "unclear where to set")
            else .error e)
    ∧ (localLookup fl key = none → parent = none →
      Closure.setitem h (.mk parent fl tgt fac none) key value
        = .error (.nameNotFound key "unclear where to set"))
    ∧ (∀ p, localLookup fl key = none → parent = some p →
      Closure.delitem h (.mk parent fl tgt fac none) key
        = match Closure.delitem h p key with
          | .ok h2 => .ok h2
          | .error e =>
            if e.isNameNotFound then
              .error (.nameNotFound key "unclear where to delete")
            else .error e)
    ∧ (localLookup fl key = none → parent = none →
      Closure.delitem h (.mk parent fl tgt fac none) key
        = .error (.nameNotFound key "unclear where to delete")) := by
  refine ⟨rfl, rfl, ?_, ?_, ?_, ?_, ?_, ?_, ?_⟩
  · intro v hv
    cases parent <;> simp [Closure.getitem, hv]
  · intro p hl hpar
    subst hpar
    simp only [Closure.getitem, hl, targetStep]
  · intro hl hpar
    subst hpar
    simp [Closure.getitem, hl, targetStep]
  · intro p hl hpar
    subst hpar
    simp only [Closure.setitem, hl, targetStep]
  · intro hl hpar
    subst hpar
    simp [Closure.setitem, hl, targetStep]
  · intro p hl hpar
    subst hpar
    simp only [Closure.delitem, hl, targetStep]
  · intro hl hpar
    subst hpar
    simp [Closure.delitem, hl, targetStep]

/-- A concrete unbound closure over the `from_map` root, capturing a
snapshot binding `x`. -/
def ucW : UnboundClosure Nat :=
  ⟨Closure.from_map 1, [("x", Val.prim 3)], fun _ _ => 0⟩

/-- Witness for C10: the closure bound with zero arguments has no target
context, and a closure without target context returns its local `x` and
delegates a non-local get to the parent. -/
theorem c10_zero_args_closure_has_no_target_witness :
    (ucW.boundClosure []).target_context = none
    ∧ localLookup (some [("x", Val.prim 3)]) "x" = some (Val.prim 3)
    ∧ Closure.getitem [] localsHeap
        (.mk (some (Closure.from_map 1)) (some [("x", Val.prim 3)]) none
          Context.objectContext none) "x"
        = .ok (Val.prim 3) :=
  ⟨(c10_zero_args_closure_has_no_target [] localsHeap ucW
      (some (Closure.from_map 1)) (some [("x", Val.prim 3)]) none
      Context.objectContext "x" (Val.prim 9)).1,
    by decide,
    (c10_zero_args_closure_has_no_target [] localsHeap ucW
        (some (Closure.from_map 1)) (some [("x", Val.prim 3)]) none
        Context.objectContext "x" (Val.prim 9)).2.2.1
      (Val.prim 3) (by decide)⟩

end BuildDSL
